import Mathlib

/-!
Verification of the suo bootstrap runtime (suo-runtime.c) against its
specification.  The development shallowly embeds the value encoding, the
two-space copying collector (mem_copy / mem_scan / mem_check), the bump
allocator (mem_alloc) and the bootstrap evaluator (boot_eval) and settles
the frozen claims about them.

Conventions of the embedding:
- a machine `word` is a `Nat`; arithmetic that the 32-bit C code truncates
  is written with an explicit `% 2 ^ 32`;
- `sword` results (C signed ints) are `Int`; the C arithmetic right shift
  is floor division, which is Lean's `Int` division `/` (ediv) for a
  positive divisor;
- heap memory is a flat list of words addressed by byte address (all
  addresses used are multiples of 4); reading an unmapped word yields 0;
- a C `abort ()` or undefined behaviour is an `Option`/`CRes` failure.
-/

set_option maxRecDepth 4000

namespace Suo

/-! ## Value encoding (suo-runtime.c lines 156-353) -/

/-- word val_tag (val v, int shift): the low `shift` bits of a value word. -/
def val_tag (v : Nat) (shift : Nat) : Nat := v % 2 ^ shift

/-- bool val_ptr_p (val v): a word points into the heap iff its low two bits
are nonzero and its low three bits are not 111 (lines 209-213). -/
def val_ptr_p (v : Nat) : Bool := val_tag v 2 != 0 && val_tag v 3 != 7

/-- val val_ptr_make (val *ptr, int tag): attach a tag to a byte address. -/
def val_ptr_make (ptr tag : Nat) : Nat := ptr + tag

/-- val *val_ptr (val v, int tag): strip a known tag from a value. -/
def val_ptr (v tag : Nat) : Nat := v - tag

/-- val *val_ptr_any_tag (val v): clear the low three bits (v & ~7). -/
def val_ptr_any_tag (v : Nat) : Nat := v - v % 8

/-- word head_tag (word h, int shift): the low `shift` bits of a header. -/
def head_tag (h : Nat) (shift : Nat) : Nat := h % 2 ^ shift

/-- word head_payload (word h, int shift). -/
def head_payload (h : Nat) (shift : Nat) : Nat := h / 2 ^ shift

/-- val head_make (word payload, int shift, int tag); the 32-bit truncation of
the C shift is explicit, and since the tag is below 2 ^ shift the bitwise or
of the C source is addition. -/
def head_make (payload shift tag : Nat) : Nat := payload * 2 ^ shift % 2 ^ 32 + tag

/-- val val_make (word payload, int shift, int tag) on unsigned payloads. -/
def val_make (payload shift tag : Nat) : Nat := payload * 2 ^ shift % 2 ^ 32 + tag

/-- The named special values (lines 274-277): #f, #t, the empty list, the
unspecified value. -/
def nil_val : Nat := val_make 2 6 0x37

/-- A word reinterpreted as a 32-bit two's-complement signed integer. -/
def toInt32 (w : Nat) : Int :=
  if w % 2 ^ 32 < 2 ^ 31 then (w % 2 ^ 32 : Int) else (w % 2 ^ 32 : Int) - 2 ^ 32

/-- An Int truncated to a 32-bit word (two's complement). -/
def word_of_int (x : Int) : Nat := (x % 2 ^ 32).toNat

/-- sword fixnum_num (val v): signed payload, arithmetic shift right by 2
(lines 313-317). -/
def fixnum_num (v : Nat) : Int := toInt32 v / 4

/-- fixnum_make (n): the word (n << 2) | 0, truncated to 32 bits. -/
def fixnum_make (n : Int) : Nat := word_of_int (4 * n)

/-- bool pair_ptr_p (val *v) on the first word of a heap object
(lines 328-339): among the 111-tagged words only characters (100111) and
named specials (110111) may start a pair; a 110-tagged word starts a
record; everything else starts a pair. -/
def pair_ptr_p (w0 : Nat) : Bool :=
  if head_tag w0 3 = 7 then head_tag w0 6 == 0x27 || head_tag w0 6 == 0x37
  else head_tag w0 3 != 6

/-- bool vec_ptr_p (val *v) (lines 365-369): header low four bits 1111. -/
def vec_ptr_p (w0 : Nat) : Bool := head_tag w0 4 == 15

/-- word vec_ptr_len (val *v) (lines 379-383). -/
def vec_ptr_len (w0 : Nat) : Nat := head_payload w0 4

/-- bool bytev_ptr_p (val *v) (lines 414-418): header low six bits 000111. -/
def bytev_ptr_p (w0 : Nat) : Bool := head_tag w0 6 == 7

/-- word bytev_ptr_len (val *v) (lines 428-432). -/
def bytev_ptr_len (w0 : Nat) : Nat := head_payload w0 6

/-- bool code_ptr_p (val *v) (lines 451-455): header low six bits 010111. -/
def code_ptr_p (w0 : Nat) : Bool := head_tag w0 6 == 0x17

/-- word code_ptr_lit_begin (val *v) (lines 457-461): word offset of the
literal area, computed from the byte length alone. -/
def code_ptr_lit_begin (w0 : Nat) : Nat := (bytev_ptr_len w0 + 3) / 4

/-- bool rec_p (val v) (lines 507-511). -/
def rec_p (v : Nat) : Bool := val_tag v 3 == 3

/-- bool rec_ptr_p (val *v) (lines 513-517): first word tagged 110. -/
def rec_ptr_p (w0 : Nat) : Bool := head_tag w0 3 == 6

/-! ## Claim C3: val_ptr_p versus the low three bits -/

/-- Claim C3 counterexample: the claim states that val_ptr_p is true iff the
low three bits lie in 001, 010, 011, 101, in particular false on 110; but
on the word 6 (low bits 110, a record-descriptor header) val_ptr_p returns
true, since 110 has nonzero low two bits and is not 111. -/
theorem C3_counterexample :
    val_ptr_p 6 = true ∧ ¬(6 % 8 = 1 ∨ 6 % 8 = 2 ∨ 6 % 8 = 3 ∨ 6 % 8 = 5) := by
  decide

/-- Claim C3 amended: val_ptr_p v is true iff the low three bits of v lie in
the set 001, 010, 011, 101, 110 — the record-descriptor tag 110 is accepted
as a pointer, not rejected. -/
theorem C3_val_ptr_p_amended (v : Nat) :
    val_ptr_p v = true ↔
      (v % 8 = 1 ∨ v % 8 = 2 ∨ v % 8 = 3 ∨ v % 8 = 5 ∨ v % 8 = 6) := by
  simp only [val_ptr_p, val_tag, Bool.and_eq_true, bne_iff_ne, ne_eq]
  constructor
  · rintro ⟨h2, h3⟩
    omega
  · intro h
    omega

/-- Claim C3 amended, instantiated at the word 2 (a vector pointer). -/
theorem C3_amended_witness :
    val_ptr_p 2 = true ↔
      (2 % 8 = 1 ∨ 2 % 8 = 2 ∨ 2 % 8 = 3 ∨ 2 % 8 = 5 ∨ 2 % 8 = 6) :=
  C3_val_ptr_p_amended 2

/-! ## Claim C6: the pair discriminator -/

/-- Claim C6: pair_ptr_p classifies a first word exactly as specified: a
111-tagged word starts a pair iff its six-bit refinement is 100111 (0x27, a
character) or 110111 (0x37, a named special); a 110-tagged word starts a
record, not a pair; every other word starts a pair. -/
theorem C6_pair_ptr_p (w : Nat) :
    pair_ptr_p w = true ↔
      ((w % 8 = 7 ∧ (w % 64 = 0x27 ∨ w % 64 = 0x37)) ∨ (w % 8 ≠ 7 ∧ w % 8 ≠ 6)) := by
  simp only [pair_ptr_p, head_tag]
  split
  · simp only [Bool.or_eq_true, beq_iff_eq]
    constructor
    · intro h
      omega
    · intro h
      omega
  · simp only [bne_iff_ne, ne_eq]
    constructor
    · intro h
      omega
    · intro h
      omega

/-- Claim C6, instantiated at the character word 0x27. -/
theorem C6_witness :
    pair_ptr_p 0x27 = true ↔
      ((0x27 % 8 = 7 ∧ (0x27 % 64 = 0x27 ∨ 0x27 % 64 = 0x37)) ∨
        (0x27 % 8 ≠ 7 ∧ 0x27 % 8 ≠ 6)) :=
  C6_pair_ptr_p 0x27

/-! ## Heap memory

Memory is a flat list of words; address `a` (a byte address, always a
multiple of 4 here) denotes word `a / 4`.  Reading outside the list gives 0
and writing outside it is a no-op — such accesses are heap overruns
(undefined behaviour) in the C source and never occur on the inputs below. -/

/-- Read the word at byte address a. -/
def readw (m : List Nat) (a : Nat) : Nat := m.getD (a / 4) 0

/-- Write the word at byte address a. -/
def writew (m : List Nat) (a : Nat) (x : Nat) : List Nat := m.set (a / 4) x

/-- memcpy of n words from byte address src to byte address dst; the two
regions do not overlap in the collector (old versus new semispace), so
reading every word from the original memory is exact. -/
def memcpyw (m : List Nat) (dst src : Nat) (n : Nat) : List Nat :=
  (List.range n).foldl (fun acc i => writew acc (dst + 4 * i) (readw m (src + 4 * i))) m

/-- word code_ptr_lit_end (val *v) (lines 463-467): the word stored at
offset code_ptr_lit_begin − 1 from the object start; the object start is
given as a byte address into m. -/
def code_ptr_lit_end (m : List Nat) (ptrB : Nat) : Nat :=
  readw m (ptrB + 4 * (code_ptr_lit_begin (readw m ptrB) - 1))

/-! ## The copying collector (lines 607-722) -/

/-- The collector's state: the flat memory and the destination-semispace
bounds mem_new_first, mem_new_end and allocation cursor mem_new_next
(byte addresses). -/
structure GC where
  mem : List Nat
  newFirst : Nat
  newEnd : Nat
  newNext : Nat
deriving DecidableEq

/-- val *mem_follow_fwd_ptr (val *ptr) (lines 617-627): a first word that is
pair-tagged and points into the new semispace is a forwarding pointer. -/
def mem_follow_fwd_ptr (g : GC) (p : Nat) : Nat :=
  let w := readw g.mem p
  if w % 8 = 1 ∧ g.newFirst ≤ w - 1 ∧ w - 1 < g.newEnd then w - 1 else p

/-- round up to an even count: (size + 1) & ~1 on a signed size. -/
def round_up_even_int (s : Int) : Int := 2 * ((s + 1) / 2)

/-- The size computation of mem_copy (lines 646-663), in words, as a signed
int.  The C local `size` is read before it is ever assigned in the
code-block branch (`size += code_ptr_lit_end (ptr) + 1;`), so the junk
initial value of that local is the explicit parameter size0.  The final
`else abort ();` is `none`. -/
def mem_copy_size (size0 : Int) (g : GC) (ptr : Nat) : Option Int :=
  let w0 := readw g.mem ptr
  if pair_ptr_p w0 then some 2
  else if vec_ptr_p w0 then some (vec_ptr_len w0 + 1)
  else if bytev_ptr_p w0 then some ((bytev_ptr_len w0 + 3) / 4 + 1)
  else if code_ptr_p w0 then some (size0 + code_ptr_lit_end g.mem ptr + 1)
  else if rec_ptr_p w0 then
    -- rec_ptr_desc (ptr) is the tag-3 value (w0 - 6) + 3; its raw address
    -- is w0 - 6, and the descriptor may itself be forwarded already
    some ((fixnum_num (readw g.mem (mem_follow_fwd_ptr g (val_ptr w0 6) + 4))).natAbs + 1)
  else none

/-- The move of mem_copy (lines 665-671): bump mem_new_next by the size
rounded up to an even word count (with 32-bit pointer wrap-around), copy
size words, install the forwarding pointer, and re-tag the new address. -/
def mem_copy_move (g : GC) (v ptr : Nat) (size : Int) : Nat × GC :=
  (val_ptr_make g.newNext (v % 8),
    { mem := writew (memcpyw g.mem g.newNext ptr size.toNat) ptr (val_ptr_make g.newNext 1),
      newFirst := g.newFirst, newEnd := g.newEnd,
      newNext := word_of_int ((g.newNext : Int) + 4 * round_up_even_int size) })

/-- val mem_copy (val v) (lines 629-672): non-pointers are returned as they
are; a forwarded object yields its forwarding target re-tagged; otherwise
the object is sized by shape and moved to the destination semispace. -/
def mem_copy (size0 : Int) (g : GC) (v : Nat) : Option (Nat × GC) :=
  if ¬ val_ptr_p v then some (v, g)
  else if mem_follow_fwd_ptr g (val_ptr_any_tag v) ≠ val_ptr_any_tag v then
    some (val_ptr_make (mem_follow_fwd_ptr g (val_ptr_any_tag v)) (v % 8), g)
  else
    match mem_copy_size size0 g (val_ptr_any_tag v) with
    | none => none
    | some size => some (mem_copy_move g v (val_ptr_any_tag v) size)

/-- The scan loop of mem_scan (lines 718-719): rewrite size consecutive value
slots through mem_copy, starting at byte address c. -/
def mem_scan_loop (size0 : Int) : Nat → Int → GC → Option GC
  | 0, _, g => some g
  | k + 1, c, g => do
    let a := c.toNat
    let r ← mem_copy size0 g (readw g.mem a)
    mem_scan_loop size0 k (c + 4) { r.2 with mem := writew r.2.mem a r.1 }

/-- val *mem_scan (val *ptr) (lines 674-722).  The cursor is kept as an Int
because the raw-record branch executes `ptr += size` with a negative size;
the returned next-object address mirrors the source's
(val *)((word)((ptr + size) + 1) & ~7) with 32-bit pointer wrap-around. -/
def mem_scan (size0 : Int) (g : GC) (p : Nat) : Option (Nat × GC) :=
  let w0 := readw g.mem p
  let branch? : Option (Int × Int × GC) :=
    if pair_ptr_p w0 then some (p, 2, g)
    else if vec_ptr_p w0 then some ((p : Int) + 4, vec_ptr_len w0, g)
    else if bytev_ptr_p w0 then some ((p : Int) + 4 * ((bytev_ptr_len w0 + 3) / 4 + 1), 0, g)
    else if code_ptr_p w0 then
      some ((p : Int) + 4 * code_ptr_lit_begin w0,
        (code_ptr_lit_end g.mem p : Int) - code_ptr_lit_begin w0, g)
    else if rec_ptr_p w0 then
      match mem_copy size0 g (val_ptr_make (val_ptr w0 6) 3) with
      | none => none
      | some (desc, g1) =>
        -- ptr[0] = rec_header_make (desc); rec_header_make re-tags desc with 6
        let g2 := { g1 with mem := writew g1.mem p (val_ptr_make (val_ptr desc 3) 6) }
        let size := fixnum_num (readw g2.mem (val_ptr desc 3 + 4))
        if size < 0 then some ((p : Int) + 4 + 4 * size, 0, g2)
        else some ((p : Int) + 4, size, g2)
    else none
  match branch? with
  | none => none
  | some (c, size, g1) => do
    let g2 ← mem_scan_loop size0 size.toNat c g1
    let t := (c + 4 * size + 4) % 2 ^ 32
    some ((t - t % 8).toNat, g2)

/-! ## Claim C1: mem_scan over a raw record -/

/-- Next-object address as the spec and claim C1 describe it for a raw
record: the record start advanced past the descriptor header and sAbs
payload words, rounded up to 8-byte alignment. -/
def scan_spec_next (p sAbs : Nat) : Nat := (p + 4 * (1 + sAbs) + 7) / 8 * 8

/-- A destination semispace holding, at byte 0, a raw record of two raw
payload words (1111 and 2222) whose header points at the old-space
descriptor at byte 64; that descriptor has been forwarded (word 17, a
pair-tagged pointer) to the new-space descriptor at byte 16, whose field 0
(byte 20) is the fixnum −2 (word 4294967288). -/
def gC1 : GC :=
  { mem := [70, 1111, 2222, 0, 22, 4294967288, 183, 0, 0, 0, 0, 0, 0, 0, 0, 0, 17],
    newFirst := 0, newEnd := 64, newNext := 24 }

/-- Claim C1 fails on the code: scanning the raw record at byte 0 of gC1
rewrites the descriptor header (word 0 becomes 22, the new descriptor
re-tagged) and no payload slot, but then executes `ptr += size` with
size = −2, so it returns byte address 0 — the record's own start — instead
of the next-object address 16 that the claim specifies.  The scan cursor of
mem_gc would never advance past this record. -/
theorem C1_raw_record_scan_bug :
    mem_scan 0 gC1 0 = some (0, { gC1 with mem := gC1.mem.set 0 22 })
    ∧ (gC1.mem.set 0 22).getD 1 0 = 1111
    ∧ (gC1.mem.set 0 22).getD 2 0 = 2222
    ∧ scan_spec_next 0 2 = 16
    ∧ (0 : Nat) ≠ 16 := by
  refine ⟨by decide, by decide, by decide, by decide, by decide⟩

/-! ## Claim C2: mem_copy of a code block -/

/-- round up a word count to even: (n + 1) & ~1 (see mem_alloc, line 202). -/
def round_up_even (n : Nat) : Nat := (n + 1) - (n + 1) % 2

/-- An old-space code block at byte 64: header 535 = head_make 8 6 0x17
(byte length L = 8, so the literal area begins at word offset 2), the word
at offset 1 holds the literal-end offset 4 (so there are E = 4 − 2 = 2
literal words, 40 and 84), and the destination semispace is bytes 0..63
with mem_new_next = 0. -/
def gC2 : GC :=
  { mem := [0, 0, 0, 0, 0, 0, 0, 0, 0, 0, 0, 0, 0, 0, 0, 0, 535, 4, 40, 84, 7, 8, 9, 10, 11],
    newFirst := 0, newEnd := 64, newNext := 0 }

/-- Claim C2 fails on the code: because the code-block branch of mem_copy
reads the uninitialized local `size` (`size += code_ptr_lit_end (ptr) + 1;`),
the words allocated and copied depend on the junk value.  With junk 4 the
copy allocates 40 bytes and copies 9 words; the claim's size
ceil(L/4) + 1 + E = 5 — which the code computes only when the junk happens
to be 0 — allocates 24 bytes. -/
theorem C2_code_block_copy_bug :
    mem_copy 4 gC2 69 =
      some (5, { mem := [535, 4, 40, 84, 7, 8, 9, 10, 11, 0, 0, 0, 0, 0, 0, 0,
                         1, 4, 40, 84, 7, 8, 9, 10, 11],
                 newFirst := 0, newEnd := 64, newNext := 40 })
    ∧ ((mem_copy 0 gC2 69).map fun r => r.2.newNext) = some 24
    ∧ 4 * round_up_even ((8 + 3) / 4 + 1 + 2) = 24
    ∧ (40 : Nat) ≠ 24 := by
  refine ⟨by decide, by decide, by decide, by decide⟩

/-! ## The heap checker mem_check (lines 784-890)

mem_check walks the heap [mem_first, mem_next); here the memory list is
indexed from the byte address baseB (mem_first), and the while loops carry
explicit fuel since a corrupt heap can make the cursor loop forever. -/

/-- Outcome of a checker pass: finished with a value, called abort (), or
ran out of fuel. -/
inductive CRes (α : Type) where
  | ok : α → CRes α
  | aborted : CRes α
  | spin : CRes α
deriving DecidableEq

/-- Pass 1 (lines 796-838): classify each object by its first word, record
its size (a 32-bit unsigned word) in the shadow array at the object's word
offset, and step to the next 8-byte-aligned start.  The record branch
asserts rec_p on the descriptor value (vacuously true by construction) and
takes fixnum_num of the descriptor's field 0 plus one, truncated to a
word. -/
def mem_check_pass1 (mem : List Nat) (baseB memNextB : Nat) :
    Nat → Nat → List Nat → CRes (List Nat)
  | 0, _, _ => .spin
  | fuel + 1, ptrB, shadow =>
    if ptrB < memNextB then
      let w0 := readw mem (ptrB - baseB)
      let size? : Option Nat :=
        if pair_ptr_p w0 then some 2
        else if vec_ptr_p w0 then some (vec_ptr_len w0 + 1)
        else if bytev_ptr_p w0 then some ((bytev_ptr_len w0 + 3) / 4 + 1)
        else if code_ptr_p w0 then some ((code_ptr_lit_end mem (ptrB - baseB) + 1) % 2 ^ 32)
        else if rec_ptr_p w0 then
          if rec_p (val_ptr_make (val_ptr w0 6) 3) then
            some (word_of_int (fixnum_num (readw mem (val_ptr w0 6 + 4 - baseB)) + 1))
          else none
        else none
      match size? with
      | none => .aborted
      | some size =>
        let shadow1 := shadow.set ((ptrB - baseB) / 4) size
        let t := (ptrB + 4 * size + 4) % 2 ^ 32
        mem_check_pass1 mem baseB memNextB fuel (t - t % 8) shadow1
    else .ok shadow

/-- The inner loop of pass 2 (lines 869-884): check k value slots starting
at ptrB; returns true iff an abort () was executed.  For a pointer slot the
code aborts when the target is outside [mem_first, mem_end]; the following
statement of the source,

  word s = shadow_heap[p - mem_first];
  if (s == 0)
    abort;

is an expression statement naming the function without calling it, so a
pointer landing inside the heap but not on an object start (shadow entry 0)
falls through without any effect. -/
def mem_check_slots (mem shadow : List Nat) (baseB memEndB : Nat) : Nat → Nat → Bool
  | _, 0 => false
  | ptrB, k + 1 =>
    let v := readw mem (ptrB - baseB)
    if val_ptr_p v then
      let p := val_ptr_any_tag v
      if p < baseB ∨ p > memEndB then true
      else
        let _s := shadow.getD ((p - baseB) / 4) 0
        mem_check_slots mem shadow baseB memEndB (ptrB + 4) k
    else mem_check_slots mem shadow baseB memEndB (ptrB + 4) k

/-- Pass 2 (lines 846-887): for each object (size from the shadow array;
size 0 aborts), skip its header words according to its shape and check the
remaining value slots with mem_check_slots. -/
def mem_check_pass2 (mem shadow : List Nat) (baseB memNextB memEndB : Nat) :
    Nat → Nat → CRes Unit
  | 0, _ => .spin
  | fuel + 1, ptrB =>
    if ptrB < memNextB then
      let size := shadow.getD ((ptrB - baseB) / 4) 0
      if size = 0 then .aborted
      else
        let w0 := readw mem (ptrB - baseB)
        let skip? : Option Nat :=
          if pair_ptr_p w0 then some 0
          else if vec_ptr_p w0 then some 1
          else if bytev_ptr_p w0 then some size
          else if code_ptr_p w0 then some (code_ptr_lit_begin w0 + 1)
          else if rec_ptr_p w0 then some 1
          else none
        match skip? with
        | none => .aborted
        | some skip =>
          if mem_check_slots mem shadow baseB memEndB (ptrB + 4 * skip) (size - skip) then
            .aborted
          else
            let t := (ptrB + 4 * size + 4) % 2 ^ 32
            mem_check_pass2 mem shadow baseB memNextB memEndB fuel (t - t % 8)
    else .ok ()

/-- void mem_check () (lines 784-890): both passes over the heap
[baseB, memNextB) of capacity (memEndB − baseB) / 4 words. -/
def mem_check (fuel : Nat) (mem : List Nat) (baseB memNextB memEndB : Nat) : CRes Unit :=
  match mem_check_pass1 mem baseB memNextB fuel baseB
      (List.replicate ((memEndB - baseB) / 4) 0) with
  | .spin => .spin
  | .aborted => .aborted
  | .ok shadow => mem_check_pass2 mem shadow baseB memNextB memEndB fuel baseB

/-! ## Claim C5: dangling interior pointers and the checker -/

/-- A heap of two objects: a vector of length 3 at byte 0 (header 63, three
nil slots) and a pair at byte 16 whose car, the word 9, is a pair-tagged
pointer to byte 8 — 8-byte aligned, inside the heap, but the interior of
the vector, not an object start. -/
def memC5 : List Nat := [63, 183, 183, 183, 9, 183]

/-- Claim C5 fails on the code: pass 1 records object starts only at words 0
and 4, so the pointer 9 in the pair's car targets byte 8 whose shadow entry
is 0; yet mem_check completes without aborting, because the source's
`abort;` is an expression statement that never calls abort ().  The claim
says the checker aborts the process on exactly this situation. -/
theorem C5_checker_abort_bug :
    mem_check_pass1 memC5 0 24 10 0 (List.replicate 12 0) =
      .ok [4, 0, 0, 0, 2, 0, 0, 0, 0, 0, 0, 0]
    ∧ readw memC5 16 = 9
    ∧ val_ptr_p 9 = true
    ∧ val_ptr_any_tag 9 = 8
    ∧ (8 : Nat) ≤ 48
    ∧ [4, 0, 0, 0, 2, 0, 0, 0, 0, 0, 0, 0].getD (8 / 4) 0 = 0
    ∧ mem_check 10 memC5 0 24 48 = .ok () := by
  refine ⟨by decide, by decide, by decide, by decide, by decide, by decide, by decide⟩

/-! ## The bump allocator mem_alloc (lines 190-204)

mem_next and mem_end are word indices into the active semispace (C pointer
arithmetic on val* counts words); a word index is 8-byte aligned exactly
when it is even, given an 8-byte-aligned semispace base.  mem_gc is passed
in as a function: the source's mem_gc returns the (possibly new) mem_next
after collecting, which the hypotheses of the claim-C8 theorem state. -/

/-- The allocator's two globals, as word indices. -/
structure AllocSt where
  memNext : Nat
  memEnd : Nat
deriving DecidableEq

/-- #define DEBUG_GC_BEFORE_ALLOC 1 (line 38): every allocation first runs a
collection. -/
def DEBUG_GC_BEFORE_ALLOC : Bool := true

/-- val *mem_alloc (int n) (lines 195-204): take the current next pointer
(after collecting if needed, or always in the debug configuration) and
advance mem_next by (n + 1) & ~1 words past the returned pointer. -/
def mem_alloc (gc : Nat → AllocSt → Nat × AllocSt) (n : Nat) (s : AllocSt) :
    Nat × AllocSt :=
  let pg := if s.memNext + n > s.memEnd ∨ DEBUG_GC_BEFORE_ALLOC = true
    then gc n s else (s.memNext, s)
  (pg.1, { pg.2 with memNext := pg.1 + round_up_even n })

/-- A sequence of allocations: the pointers returned and the final state. -/
def alloc_seq (gc : Nat → AllocSt → Nat × AllocSt) :
    List Nat → AllocSt → List Nat × AllocSt
  | [], s => ([], s)
  | n :: rest, s =>
    let pa := mem_alloc gc n s
    let ps := alloc_seq gc rest pa.2
    (pa.1 :: ps.1, ps.2)

/-- The collector's bump of mem_new_next (lines 665-666) is by an even word
count, so it preserves the new-space cursor's 8-byte alignment residue. -/
theorem mem_copy_newNext_mod8 (size0 : Int) (g : GC) (v : Nat) (r : Nat × GC)
    (h : mem_copy size0 g v = some r) : r.2.newNext % 8 = g.newNext % 8 := by
  unfold mem_copy at h
  split at h
  · cases h
    rfl
  · split at h
    · cases h
      rfl
    · split at h
      · exact absurd h (by simp)
      · rename_i size heq
        cases h
        show word_of_int ((g.newNext : Int) + 4 * round_up_even_int size) % 8 = _
        unfold word_of_int round_up_even_int
        omega

/-- round_up_even always yields an even word count. -/
theorem round_up_even_mod2 (n : Nat) : round_up_even n % 2 = 0 := by
  unfold round_up_even
  omega

/-- Claim C8: mem_alloc returns the next pointer current at bump time (the
value mem_gc returned, since DEBUG_GC_BEFORE_ALLOC forces a collection) and
advances mem_next past it by round_up_even n, an even word count; hence,
provided the collection phase itself leaves an even mem_next — which it
does, as mem_copy bumps the new-space cursor by even word counts
(mem_copy_newNext_mod8 restated as the last conjunct) — every pointer
handed out across any sequence of allocations is an even word index, i.e.
an 8-byte-aligned address over an 8-byte-aligned semispace base. -/
theorem C8_alloc_alignment (gc : Nat → AllocSt → Nat × AllocSt)
    (hret : ∀ n s, (gc n s).1 = ((gc n s).2).memNext)
    (heven : ∀ n s, s.memNext % 2 = 0 → ((gc n s).2).memNext % 2 = 0) :
    (∀ n s, (mem_alloc gc n s).2.memNext = (mem_alloc gc n s).1 + round_up_even n)
    ∧ (∀ n, round_up_even n % 2 = 0)
    ∧ (∀ n s, (mem_alloc gc n s).1 = ((gc n s).2).memNext)
    ∧ (∀ sizes s0, s0.memNext % 2 = 0 →
        (∀ p ∈ (alloc_seq gc sizes s0).1, p % 2 = 0)
        ∧ (alloc_seq gc sizes s0).2.memNext % 2 = 0)
    ∧ (∀ size0 g v r, mem_copy size0 g v = some r → r.2.newNext % 8 = g.newNext % 8) := by
  have hflag : ∀ n (s : AllocSt),
      (mem_alloc gc n s).1 = (gc n s).1
      ∧ (mem_alloc gc n s).2.memNext = (gc n s).1 + round_up_even n := by
    intro n s
    simp [mem_alloc, DEBUG_GC_BEFORE_ALLOC]
  refine ⟨?_, round_up_even_mod2, ?_, ?_, mem_copy_newNext_mod8⟩
  · intro n s
    rw [(hflag n s).1, (hflag n s).2]
  · intro n s
    rw [(hflag n s).1, hret]
  · intro sizes
    induction sizes with
    | nil =>
      intro s0 h0
      exact ⟨fun p hp => absurd hp (List.not_mem_nil p), h0⟩
    | cons n rest ih =>
      intro s0 h0
      have hp : (mem_alloc gc n s0).1 % 2 = 0 := by
        rw [(hflag n s0).1, hret]
        exact heven n s0 h0
      have hs1 : (mem_alloc gc n s0).2.memNext % 2 = 0 := by
        rw [(hflag n s0).2, hret]
        have h2 := heven n s0 h0
        have h3 := round_up_even_mod2 n
        omega
      have hrest := ih (mem_alloc gc n s0).2 hs1
      refine ⟨?_, hrest.2⟩
      intro p hp2
      simp only [alloc_seq, List.mem_cons] at hp2
      rcases hp2 with h | h
      · subst h
        exact hp
      · exact hrest.1 p h

/-- Claim C8, instantiated with an identity collection over the empty
sequence state: the bump and parity facts at a concrete allocation. -/
theorem C8_witness :
    (mem_alloc (fun _ s => (s.memNext, s)) 3 { memNext := 0, memEnd := 100 }).2.memNext
      = (mem_alloc (fun _ s => (s.memNext, s)) 3 { memNext := 0, memEnd := 100 }).1
        + round_up_even 3
    ∧ (alloc_seq (fun _ s => (s.memNext, s)) [3, 5, 2]
        { memNext := 0, memEnd := 100 }).2.memNext % 2 = 0 := by
  have h := C8_alloc_alignment (fun _ s => (s.memNext, s))
    (fun n s => rfl) (fun n s hs => hs)
  exact ⟨h.1 3 { memNext := 0, memEnd := 100 },
    (h.2.2.2.1 [3, 5, 2] { memNext := 0, memEnd := 100 } rfl).2⟩

/-! ## The bootstrap evaluator (lines 1884-2096)

The evaluator is embedded over structured values instead of raw words:

- `fix n` is the fixnum whose fixnum_num is n (fixnum_make stores n wrapped
  into the 30-bit signed range, exactly as the word (n << 2) reads back);
- `pair` cells are immutable, since boot_eval never calls set_car/set_cdr;
- every vector is a `vecr` reference into a store of slot lists (the heap);
  the input form's vectors are pre-seeded into the store, and vec_set
  mutates a store entry in place;
- `vec_alloc` fills fresh slots with `junk`, the model of uninitialized
  heap words;
- `closure body env` is the boot_function_type record built by lambda
  (field 0 = body, field 1 = environment);
- operations whose C result depends on the bit pattern of a value of the
  wrong kind (vec_ref on a non-vector address, car of a non-pair,
  fixnum_num of a non-fixnum, an opcode outside the boot_op_funcs table)
  are undefined behaviour and map to `none`. -/

/-- An Int wrapped to the 32-bit signed range (C int overflow behaves as
two's-complement wrap-around in this embedding). -/
def wrap32 (x : Int) : Int := (x + 2 ^ 31) % 2 ^ 32 - 2 ^ 31

/-- An Int wrapped to the 30-bit signed fixnum range: the value that
fixnum_num reads back from fixnum_make. -/
def wrap30 (x : Int) : Int := (x + 2 ^ 29) % 2 ^ 30 - 2 ^ 29

/-- Evaluator-level values. -/
inductive SVal : Type where
  | fix : Int → SVal
  | nil : SVal
  | boolv : Bool → SVal
  | unspec : SVal
  | junk : SVal
  | pair : SVal → SVal → SVal
  | vecr : Nat → SVal
  | closure : SVal → SVal → SVal
deriving DecidableEq

/-- The store of vectors (the heap): slot lists addressed by index. -/
abbrev Store : Type := List (List SVal)

/-- The slot list of a vector value. -/
def getVec (st : Store) : SVal → Option (List SVal)
  | .vecr k => st[k]?
  | _ => none

/-- val vec_ref (val v, int i) (lines 1013-1017). -/
def vec_ref (st : Store) (v : SVal) (i : Int) : Option SVal :=
  match getVec st v with
  | none => none
  | some l => if 0 ≤ i then l[i.toNat]? else none

/-- void vec_set (val v, int i, val x) (lines 1019-1023); only evaluator
allocated vectors are ever mutated. -/
def vec_set (st : Store) (v : SVal) (i : Int) (x : SVal) : Option Store :=
  match v with
  | .vecr k =>
    match st[k]? with
    | none => none
    | some l =>
      if 0 ≤ i ∧ i.toNat < l.length then some (st.set k (l.set i.toNat x)) else none
  | _ => none

/-- word vec_len (val v) (lines 385-389). -/
def vec_len (st : Store) (v : SVal) : Option Nat := (getVec st v).map List.length

/-- val vec_alloc (word len) (lines 371-377): header written, slots left
uninitialized. -/
def vec_alloc (st : Store) (len : Nat) : SVal × Store :=
  (.vecr st.length, st ++ [List.replicate len SVal.junk])

/-- The fill loop of vec_make (lines 1031-1033): vec_set every slot
i < len to init, over whatever slot contents the allocator produced. -/
def vec_make_slots (len : Nat) (init : SVal) (junk : List SVal) : List SVal :=
  (List.range len).foldl (fun s i => s.set i init) junk

/-- val vec_make (word len, val init) (lines 1025-1037): vec_alloc then the
fill loop. -/
def vec_make (st : Store) (len : Nat) (init : SVal) : SVal × Store :=
  (.vecr st.length, st ++ [vec_make_slots len init (List.replicate len SVal.junk)])

/-- val car (val v) (lines 974-978). -/
def car : SVal → Option SVal
  | .pair a _ => some a
  | _ => none

/-- val cdr (val v) (lines 980-984). -/
def cdr : SVal → Option SVal
  | .pair _ d => some d
  | _ => none

/-- val rec_ref (val v, int i) (lines 1051-1055) on the only records the
evaluator reads: boot_function_type closures. -/
def rec_ref : SVal → Nat → Option SVal
  | .closure b _, 0 => some b
  | .closure _ e, 1 => some e
  | _, _ => none

/-- sword fixnum_num at the evaluator level: defined only on fixnums (on any
other value the C result is a reinterpretation of its bit pattern, which
this level abstracts away). -/
def fixnum_numE : SVal → Option Int
  | .fix n => some n
  | _ => none

/-- fixnum_make at the evaluator level: the value the word (n << 2) denotes,
i.e. n wrapped into the 30-bit signed range. -/
def fixnum_makeE (n : Int) : SVal := .fix (wrap30 n)

/-- fixnum_num of every slot in order (the loops of boot_op_sum_func and
boot_op_mul_func read vec_ref (vals, i) for i from 1 upward). -/
def fixnum_list : List SVal → Option (List Int)
  | [] => some []
  | v :: rest => do
    let n ← fixnum_numE v
    let t ← fixnum_list rest
    pure (n :: t)

/-- val boot_op_sum_func (val vals) (lines 1886-1893): int x = 0, then
x += fixnum_num (vec_ref (vals, i)) for i from 1, then fixnum_make (x). -/
def boot_op_sum_func (st : Store) (vals : SVal) : Option SVal := do
  let l ← getVec st vals
  let nums ← fixnum_list (l.drop 1)
  pure (fixnum_makeE (nums.foldl (fun a b => wrap32 (a + b)) 0))

/-- val boot_op_mul_func (val vals) (lines 1895-1902): int x = 1, then
x *= fixnum_num (vec_ref (vals, i)) for i from 1, then fixnum_make (x). -/
def boot_op_mul_func (st : Store) (vals : SVal) : Option SVal := do
  let l ← getVec st vals
  let nums ← fixnum_list (l.drop 1)
  pure (fixnum_makeE (nums.foldl (fun a b => wrap32 (a * b)) 1))

/-- The environment walk `while (up > 0) f = cdr (f)` (lines 1963-1967 and
2026-2031); a non-positive up leaves the environment unchanged. -/
def envWalk : SVal → Nat → Option SVal
  | e, 0 => some e
  | e, k + 1 => do
    let d ← cdr e
    envWalk d k

/-- The copy loop of boot_op_apply (lines 2061-2062): slot i of the argument
vector into slot i + 2 of the fresh frame, k slots starting at i. -/
def apply_copy_loop (fv argv : SVal) : Nat → Nat → Store → Option Store
  | _, 0, st => some st
  | i, k + 1, st => do
    let x ← vec_ref st argv i
    let st1 ← vec_set st fv ((i : Int) + 2) x
    apply_copy_loop fv argv (i + 1) k st1

/-- The three labels of boot_eval's loop. -/
inductive EMode : Type where
  | evalForm : EMode
  | doOpStep : EMode
  | useValue : EMode
deriving DecidableEq

/-- The evaluator's machine state: the store of mutable vectors, the C
locals stack, env, form, top_op, top_pos, top_form, top_result, value, and
the label about to run. -/
structure EState where
  store : Store
  stack : SVal
  env : SVal
  form : SVal
  topOp : Int
  topPos : Int
  topForm : SVal
  topResult : SVal
  value : SVal
  mode : EMode
deriving DecidableEq

/-- The PUSH macro (lines 1934-1945). -/
def pushFrame (s : EState) (FORM : SVal) (OP : Int) : Option EState := do
  let fa := vec_alloc s.store 3
  let fv := fa.1
  let st2 ← vec_set fa.2 fv 0 s.topForm
  let st3 ← vec_set st2 fv 1 s.topResult
  let st4 ← vec_set st3 fv 2 (fixnum_makeE s.topPos)
  let len ← vec_len st4 FORM
  let ra := vec_make st4 len .unspec
  let rv := ra.1
  pure { s with
    store := ra.2
    stack := (SVal.pair fv s.stack)
    topForm := FORM
    topResult := rv
    topOp := OP
    topPos := 1 }

/-- The POP macro (lines 1947-1955). -/
def popFrame (s : EState) : Option EState := do
  let f ← car s.stack
  let tf ← vec_ref s.store f 0
  let tr ← vec_ref s.store f 1
  let tpv ← vec_ref s.store f 2
  let tp ← fixnum_numE tpv
  let opv ← vec_ref s.store tf 0
  let op ← fixnum_numE opv
  let rest ← cdr s.stack
  pure { s with
    topForm := tf
    topResult := tr
    topPos := tp
    topOp := op
    stack := rest }

/-- One step of boot_eval (lines 1957-2095): run the label in s.mode up to
its next goto.  `inl` is the state at the next label, `inr` is the
evaluator's return value. -/
def boot_eval_step (s : EState) : Option (EState ⊕ SVal) :=
  match s.mode with
  | .evalForm =>
    -- eval_form (lines 1957-1998)
    match s.form with
    | .pair a d => do
      let up ← fixnum_numE a
      let n ← fixnum_numE d
      let f ← envWalk s.env up.toNat
      let hd ← car f
      let v ← vec_ref s.store hd (n + 2)
      pure (.inl { s with value := v, mode := .useValue })
    | .vecr k => do
      let opv ← vec_ref s.store (.vecr k) 0
      let op ← fixnum_numE opv
      if op = 4 then do
        let v ← vec_ref s.store (.vecr k) 1
        pure (.inl { s with value := v, mode := .useValue })
      else if op = 1 then do
        let b ← vec_ref s.store (.vecr k) 1
        pure (.inl { s with value := (SVal.closure b s.env), mode := .useValue })
      else do
        let s1 ← pushFrame s (.vecr k) op
        pure (.inl { s1 with mode := .doOpStep })
    | f => pure (.inl { s with value := f, mode := .useValue })
  | .doOpStep =>
    -- do_op_step (lines 2000-2080)
    if s.topOp = 0 then  -- boot_op_if (lines 2004-2015)
      if s.topPos = 1 then do
        let f1 ← vec_ref s.store s.topForm s.topPos
        pure (.inl { s with form := f1, mode := .evalForm })
      else do
        let r ← vec_ref s.store s.topResult 1
        let b ← if r ≠ SVal.nil then vec_ref s.store s.topForm 2
          else vec_ref s.store s.topForm 3
        let s1 ← popFrame s
        pure (.inl { s1 with form := b, mode := .evalForm })
    else if s.topOp = 5 then  -- boot_op_set (lines 2017-2036)
      if s.topPos = 1 then do
        let f2 ← vec_ref s.store s.topForm 2
        pure (.inl { s with topPos := 2, form := f2, mode := .evalForm })
      else do
        let c ← vec_ref s.store s.topForm 1
        let a ← car c
        let up ← fixnum_numE a
        let d ← cdr c
        let n ← fixnum_numE d
        let f ← envWalk s.env up.toNat
        let v ← vec_ref s.store s.form 1  -- source line 2032: value = vec_ref (form, 1)
        let hd ← car f
        let st1 ← vec_set s.store hd (n + 2) v
        let s1 ← popFrame { s with store := st1 }
        pure (.inl { s1 with value := v, mode := .useValue })
    else do
      let len ← vec_len s.store s.topForm
      if s.topPos ≥ (len : Int) then
        if s.topOp = 2 then do  -- boot_op_call (lines 2043-2051)
          let func ← vec_ref s.store s.topResult 1
          let b ← rec_ref func 0
          let e ← rec_ref func 1
          let s1 ← popFrame { s with form := b, env := (SVal.pair s.topResult e) }
          pure (.inl { s1 with mode := .evalForm })
        else if s.topOp = 3 then do  -- boot_op_apply (lines 2053-2066)
          let func ← vec_ref s.store s.topResult 1
          let b ← rec_ref func 0
          let e ← rec_ref func 1
          let argv ← vec_ref s.store s.topResult 2
          let l ← vec_len s.store argv
          let fa := vec_alloc s.store (l + 2)
          let fv := fa.1
          let st1 ← apply_copy_loop fv argv 0 l fa.2
          let s1 ← popFrame { s with store := st1, form := b, env := (SVal.pair fv e), value := argv }
          pure (.inl { s1 with mode := .evalForm })
        else if s.topOp = 6 then do  -- boot_op_funcs [boot_op_sum] (line 2069)
          let v ← boot_op_sum_func s.store s.topResult
          let s1 ← popFrame s
          pure (.inl { s1 with value := v, mode := .useValue })
        else if s.topOp = 7 then do  -- boot_op_funcs [boot_op_mul]
          let v ← boot_op_mul_func s.store s.topResult
          let s1 ← popFrame s
          pure (.inl { s1 with value := v, mode := .useValue })
        else none  -- boot_op_funcs holds no entry for this opcode
      else do
        let f1 ← vec_ref s.store s.topForm s.topPos
        pure (.inl { s with form := f1, mode := .evalForm })
  | .useValue =>
    -- use_value (lines 2082-2095)
    if s.topResult = SVal.nil then pure (.inr s.value)
    else do
      let st1 ← vec_set s.store s.topResult s.topPos s.value
      pure (.inl { s with store := st1, topPos := s.topPos + 1, mode := .doOpStep })

/-- The initial state of boot_eval (lines 1909-1932): the store holds the
input form's vectors (the reader built them on the heap) and, appended
behind them, the sentinel top_form = vec_make (1, fixnum_make
(boot_op_sum)); stack and environment empty, top_result = nil, top_pos = 1,
top_op = boot_op_sum, entering eval_form. -/
def boot_eval_init (st0 : Store) (form : SVal) : EState :=
  { store := st0 ++ [[fixnum_makeE 6]], stack := .nil, env := .nil, form := form,
    topOp := 6, topPos := 1, topForm := .vecr st0.length, topResult := .nil,
    value := .nil, mode := .evalForm }

/-- Iterate boot_eval_step with fuel. -/
def boot_eval_loop : Nat → EState → Option SVal
  | 0, _ => none
  | fuel + 1, s =>
    match boot_eval_step s with
    | none => none
    | some (.inr v) => some v
    | some (.inl s1) => boot_eval_loop fuel s1

/-- val boot_eval (val form) (lines 1909-2096), over a store holding the
form's vectors. -/
def boot_eval (fuel : Nat) (st0 : Store) (form : SVal) : Option SVal :=
  boot_eval_loop fuel (boot_eval_init st0 form)

/-! ## Claim C4: the result of a set form -/

/-- The heap of the compiled form
[call [lambda [sum [set (0 . 0) [sum [quote 1] [quote 2]]] (0 . 0)]]
[quote 0]]: index 3 is the set form, whose arg2 (index 2) sums 1 and 2;
the surrounding sum adds the set form's result and a fresh read of the
slot it wrote. -/
def stC4 : Store :=
  [[.fix 4, .fix 1],
   [.fix 4, .fix 2],
   [.fix 6, .vecr 0, .vecr 1],
   [.fix 5, .pair (.fix 0) (.fix 0), .vecr 2],
   [.fix 6, .vecr 3, .pair (.fix 0) (.fix 0)],
   [.fix 1, .vecr 4],
   [.fix 4, .fix 0],
   [.fix 2, .vecr 5, .vecr 6]]

/-- Claim C4 fails on the code: arg2 of the set form evaluates to V = 3
(second conjunct), so the claim predicts that the set form's result is 3,
that slot 2 of the frame holds 3, and hence that the enclosing
[sum set-form (0 . 0)] yields 6.  The code instead executes
`value = vec_ref (form, 1)` (line 2032) with form still the last subform
evaluated — [quote 2] — so both the result and the written slot are 2 and
the enclosing sum yields 4. -/
theorem C4_set_result_bug :
    boot_eval 100 stC4 (.vecr 7) = some (.fix 4)
    ∧ boot_eval 100 stC4 (.vecr 2) = some (.fix 3)
    ∧ SVal.fix 4 ≠ SVal.fix (3 + 3) := by
  refine ⟨by decide, by decide, by decide⟩

/-! ## Claim C7: sum and mul on overflow -/

/-- The heap of the compiled form [sum [quote 536870911] [quote 1]]: the
arguments are fixnums, and their mathematical sum 536870912 exceeds the
fixnum maximum 536870911. -/
def stC7 : Store :=
  [[.fix 4, .fix 536870911], [.fix 4, .fix 1], [.fix 6, .vecr 0, .vecr 1]]

/-- Claim C7 counterexample: on the overflowing sum the evaluator neither
produces unspecified nor aborts — it returns the wrapped-around small
integer −536870912 (= 536870911 + 1 − 2 ^ 30), which differs from the
mathematical sum. -/
theorem C7_counterexample :
    boot_eval 30 stC7 (.vecr 2) = some (.fix (-536870912))
    ∧ (some (SVal.fix (-536870912)) : Option SVal) ≠ some SVal.unspec
    ∧ (some (SVal.fix (-536870912)) : Option SVal) ≠ none
    ∧ (-536870912 : Int) ≠ 536870911 + 1 := by
  refine ⟨by decide, by decide, by decide, by decide⟩

/-- wrap32 preserves residues modulo 2 ^ 30. -/
theorem wrap32_emod (x : Int) : wrap32 x % 2 ^ 30 = x % 2 ^ 30 := by
  unfold wrap32
  omega

/-- Folding wrap32 additions computes the plain sum modulo 2 ^ 30. -/
theorem foldl_wrap_sum (args : List Int) : ∀ acc : Int,
    (args.foldl (fun a b => wrap32 (a + b)) acc) % 2 ^ 30 = (acc + args.sum) % 2 ^ 30 := by
  induction args with
  | nil =>
    intro acc
    simp
  | cons a t ih =>
    intro acc
    simp only [List.foldl_cons, List.sum_cons]
    rw [ih (wrap32 (acc + a))]
    have h := wrap32_emod (acc + a)
    omega

/-- Folding wrap32 multiplications computes the plain product modulo
2 ^ 30. -/
theorem foldl_wrap_mul (args : List Int) : ∀ acc : Int,
    (args.foldl (fun a b => wrap32 (a * b)) acc) % 2 ^ 30 = (acc * args.prod) % 2 ^ 30 := by
  induction args with
  | nil =>
    intro acc
    simp
  | cons a t ih =>
    intro acc
    simp only [List.foldl_cons, List.prod_cons]
    rw [ih (wrap32 (acc * a))]
    have h : wrap32 (acc * a) ≡ acc * a [ZMOD ((2 : Int) ^ 30)] := wrap32_emod (acc * a)
    have h2 := h.mul_right t.prod
    rw [h2, mul_assoc]

/-- Equal residues modulo 2 ^ 30 give equal wrap30 values. -/
theorem wrap30_congr (a b : Int) (h : a % 2 ^ 30 = b % 2 ^ 30) : wrap30 a = wrap30 b := by
  unfold wrap30
  omega

/-- fixnum_list over fixnums succeeds with the numbers. -/
theorem fixnum_list_fix (args : List Int) :
    fixnum_list (args.map SVal.fix) = some args := by
  induction args with
  | nil => rfl
  | cons a t ih =>
    simp [fixnum_list, ih, fixnum_numE]

/-- Claim C7 amended: on a result vector whose arguments are the fixnums
args, boot_op_sum_func returns the fixnum congruent to the mathematical
sum modulo 2 ^ 30 (two's-complement wrap into −2^29 … 2^29 − 1), and
boot_op_mul_func likewise returns the wrapped product; no overflow is
detected and unspecified is never produced. -/
theorem C7_sum_mul_wrap (v0 : SVal) (args : List Int) :
    boot_op_sum_func [v0 :: args.map SVal.fix] (.vecr 0)
      = some (.fix (wrap30 args.sum))
    ∧ boot_op_mul_func [v0 :: args.map SVal.fix] (.vecr 0)
      = some (.fix (wrap30 args.prod)) := by
  constructor
  · have hsum : wrap30 ((args.foldl (fun a b => wrap32 (a + b)) 0)) = wrap30 args.sum := by
      refine wrap30_congr _ _ ?_
      rw [foldl_wrap_sum args 0]
      ring_nf
    simp [boot_op_sum_func, getVec, fixnum_list_fix, fixnum_makeE, hsum]
  · have hprod : wrap30 ((args.foldl (fun a b => wrap32 (a * b)) 1)) = wrap30 args.prod := by
      refine wrap30_congr _ _ ?_
      rw [foldl_wrap_mul args 1]
      ring_nf
    simp [boot_op_mul_func, getVec, fixnum_list_fix, fixnum_makeE, hprod]

/-- Claim C7 amended, instantiated at the overflowing arguments. -/
theorem C7_amended_witness :
    boot_op_sum_func [SVal.unspec :: [(536870911 : Int), 1].map SVal.fix] (.vecr 0)
      = some (.fix (wrap30 ([(536870911 : Int), 1].sum))) :=
  (C7_sum_mul_wrap SVal.unspec [536870911, 1]).1


/-! ## Claim C9: the if operation -/

/-- The heap of the compiled form [if [quote ()] [quote 1] [quote 2]]. -/
def stC9 : Store :=
  [[.fix 4, .nil], [.fix 4, .fix 1], [.fix 4, .fix 2],
   [.fix 0, .vecr 0, .vecr 1, .vecr 2]]

/-- Claim C9: evaluating [if [quote ()] [quote 1] [quote 2]] returns the
small integer 2 (first conjunct); and in general an if frame first
evaluates its argument 1 (third conjunct), then — once the result is in —
chooses argument 3 exactly when that result is the empty list and argument
2 otherwise, popping its own frame before evaluating the branch, i.e. in
tail position (second conjunct). -/
theorem C9_if_semantics :
    boot_eval 30 stC9 (.vecr 3) = some (.fix 2)
    ∧ (∀ (s : EState) (r b : SVal) (s1 : EState),
        s.mode = .doOpStep → s.topOp = 0 → s.topPos ≠ 1 →
        vec_ref s.store s.topResult 1 = some r →
        (if r ≠ SVal.nil then vec_ref s.store s.topForm 2
          else vec_ref s.store s.topForm 3) = some b →
        popFrame s = some s1 →
        boot_eval_step s = some (.inl { s1 with form := b, mode := .evalForm }))
    ∧ (∀ (s : EState) (f1 : SVal),
        s.mode = .doOpStep → s.topOp = 0 → s.topPos = 1 →
        vec_ref s.store s.topForm s.topPos = some f1 →
        boot_eval_step s = some (.inl { s with form := f1, mode := .evalForm })) := by
  refine ⟨by decide, ?_, ?_⟩
  · intro s r b s1 hmode hop hpos hr hb hpop
    by_cases hnil : r = SVal.nil
    · rw [if_neg (by simp [hnil])] at hb
      simp [boot_eval_step, hmode, hop, hpos, hr, hb, hpop, hnil]
    · rw [if_pos hnil] at hb
      simp [boot_eval_step, hmode, hop, hpos, hr, hb, hpop, hnil]
  · intro s f1 hmode hop hpos hf1
    rw [hpos] at hf1
    simp [boot_eval_step, hmode, hop, hpos, hf1]

/-- A concrete machine state sitting at do_op_step of an if frame whose
argument 1 evaluated to the empty list: result vector at index 2 holds nil
in slot 1, the if form at index 3 has branches fix 22 and fix 33, and the
control stack holds one saved frame (index 1) over the sentinel. -/
def c9State : EState :=
  { store := [[.fix 6], [.vecr 0, .nil, .fix 1],
      [.unspec, .nil, .unspec, .unspec], [.fix 0, .fix 11, .fix 22, .fix 33]],
    stack := .pair (.vecr 1) .nil, env := .nil, form := .unspec,
    topOp := 0, topPos := 2, topForm := .vecr 3, topResult := .vecr 2,
    value := .nil, mode := .doOpStep }

/-- c9State after POP. -/
def c9Popped : EState :=
  { store := [[.fix 6], [.vecr 0, .nil, .fix 1],
      [.unspec, .nil, .unspec, .unspec], [.fix 0, .fix 11, .fix 22, .fix 33]],
    stack := .nil, env := .nil, form := .unspec,
    topOp := 6, topPos := 1, topForm := .vecr 0, topResult := .nil,
    value := .nil, mode := .doOpStep }

/-- Claim C9, instantiated: at c9State the step pops the frame and proceeds
to evaluate branch 3 (fix 33), since the test result was the empty list. -/
theorem C9_witness :
    boot_eval_step c9State = some (.inl { c9Popped with form := .fix 33, mode := .evalForm }) :=
  (C9_if_semantics).2.1 c9State SVal.nil (.fix 33) c9Popped rfl rfl (by decide)
    (by decide) (by decide) (by decide)

/-! ## Claim C10: vec_make initializes every slot -/

/-- The fill loop sets slots 0 … k − 1 to init and leaves the rest of the
allocator's contents. -/
theorem vec_make_slots_eq (init : SVal) :
    ∀ (k : Nat) (junk : List SVal), k ≤ junk.length →
      vec_make_slots k init junk = List.replicate k init ++ junk.drop k := by
  intro k
  induction k with
  | zero =>
    intro junk h
    simp [vec_make_slots]
  | succ n ih =>
    intro junk h
    have hn : n < junk.length := by omega
    unfold vec_make_slots at ih ⊢
    rw [List.range_succ, List.foldl_append, List.foldl_cons, List.foldl_nil,
      ih junk (by omega), List.drop_eq_getElem_cons hn, List.set_append]
    simp [List.replicate_succ']
    rw [List.drop_eq_getElem_cons hn, List.set_cons_zero]

/-- Claim C10: for every length and initial value, vec_make fills all len
slots with init over whatever uninitialized contents vec_alloc produced
(first two conjuncts, over an arbitrary junk list of the right length); the
vector it returns reads back as len copies of init with vec_len = len
(third and fourth conjuncts); and the header vec_alloc wrote recovers the
length (fifth conjunct). -/
theorem C10_vec_make (len : Nat) (init : SVal) (junk : List SVal) (st : Store)
    (hlen : junk.length = len) (hbound : len < 2 ^ 28) :
    vec_make_slots len init junk = List.replicate len init
    ∧ (∀ i, i < len → (vec_make_slots len init junk).getD i SVal.junk = init)
    ∧ getVec (vec_make st len init).2 (vec_make st len init).1
        = some (List.replicate len init)
    ∧ vec_len (vec_make st len init).2 (vec_make st len init).1 = some len
    ∧ vec_ptr_len (head_make len 4 15) = len := by
  have h1 : vec_make_slots len init junk = List.replicate len init := by
    rw [vec_make_slots_eq init len junk (le_of_eq hlen.symm)]
    simp [hlen]
  have h2 : vec_make_slots len init (List.replicate len SVal.junk)
      = List.replicate len init := by
    rw [vec_make_slots_eq init len _ (by simp)]
    simp
  have h3 : getVec (vec_make st len init).2 (vec_make st len init).1
      = some (List.replicate len init) := by
    show getVec (st ++ [vec_make_slots len init (List.replicate len SVal.junk)])
      (.vecr st.length) = _
    simp [getVec, List.getElem?_concat_length, h2]
  refine ⟨h1, ?_, h3, ?_, ?_⟩
  · intro i hi
    rw [h1, List.getD_eq_getElem?_getD, List.getElem?_replicate, if_pos hi]
    rfl
  · rw [vec_len, h3]
    simp
  · unfold vec_ptr_len head_make head_payload
    have e4 : (2 : Nat) ^ 4 = 16 := by norm_num
    have e32 : (2 : Nat) ^ 32 = 4294967296 := by norm_num
    have e28 : (2 : Nat) ^ 28 = 268435456 := by norm_num
    rw [e4, e32]
    rw [e28] at hbound
    omega

/-- Claim C10, instantiated at length 3 with initial value fix 7 over fresh
junk slots. -/
theorem C10_witness :
    vec_make_slots 3 (SVal.fix 7) (List.replicate 3 SVal.junk)
      = List.replicate 3 (SVal.fix 7)
    ∧ vec_len (vec_make [] 3 (SVal.fix 7)).2 (vec_make [] 3 (SVal.fix 7)).1 = some 3 := by
  have h := C10_vec_make 3 (SVal.fix 7) (List.replicate 3 SVal.junk) []
    (by decide) (by norm_num)
  exact ⟨h.1, h.2.2.2.1⟩

end Suo
